import Mathlib

/-!
Verification of the input-expansion and transcript-normalization pipeline of the
youtube-transcript-downloader service.

Strings are embedded as `List Char`.  Python values that may or may not be
strings are embedded as `PyVal`.  Dictionaries are embedded as association
lists, sets as lists queried by membership, and the two external providers
(transcript source, video-platform metadata API) as explicit environment
records of functions.  Fallible Python code (raising `ValueError`) is embedded
with `Except`.
-/

set_option autoImplicit false

instance {ε α : Type} [DecidableEq ε] [DecidableEq α] : DecidableEq (Except ε α) := fun a b =>
  match a, b with
  | .ok x, .ok y =>
    if h : x = y then .isTrue (by rw [h]) else .isFalse (by intro hh; cases hh; exact h rfl)
  | .error x, .error y =>
    if h : x = y then .isTrue (by rw [h]) else .isFalse (by intro hh; cases hh; exact h rfl)
  | .ok _, .error _ => .isFalse (by intro hh; cases hh)
  | .error _, .ok _ => .isFalse (by intro hh; cases hh)

/-- A Python value that may be a string (`str s`) or some non-string value. -/
inductive PyVal where
  | str (s : List Char)
  | pyNone
  | pyOther
deriving DecidableEq

/-- `True` iff the value is a Python string (models `isinstance(url, str)`). -/
def pvIsStr : PyVal → Bool
  | .str _ => true
  | _ => false

/-- Whitespace as recognized by Python's `str.strip()`. -/
def isPySpace (c : Char) : Bool :=
  c = ' ' || c = '\t' || c = '\n' || c = '\r' || c = '\x0b' || c = '\x0c'

/-- Python `str.strip()`: drop whitespace from both ends. -/
def pyStrip (s : List Char) : List Char :=
  ((s.dropWhile isPySpace).reverse.dropWhile isPySpace).reverse

/-- The character class `[0-9A-Za-z_-]` used by the video-id patterns. -/
def isIdChar (c : Char) : Bool :=
  c.isAlphanum || c = '_' || c = '-'

/-- Consume exactly `n` characters of the id character class, returning them;
`none` if fewer than `n` such characters are available (models `[0-9A-Za-z_-]{n}`). -/
def idTake : Nat → List Char → Option (List Char)
  | 0, _ => some []
  | _ + 1, [] => none
  | n + 1, c :: cs =>
    if isIdChar c then
      match idTake n cs with
      | some r => some (c :: r)
      | none => none
    else none

/-- Consume the literal `lit` from the front of `s` (models a literal regex part). -/
def dropLit : List Char → List Char → Option (List Char)
  | [], s => some s
  | _ :: _, [] => none
  | p :: ps, c :: cs => if c = p then dropLit ps cs else none

/-- `re.search` driver: try the single-position matcher `f` at every start
position from left to right and return the first capture. -/
def reSearch (f : List Char → Option (List Char)) : List Char → Option (List Char)
  | [] => f []
  | c :: cs =>
    match f (c :: cs) with
    | some r => some r
    | none => reSearch f cs

/-- Single-position matcher for `(?:[?&]v=|v=)([0-9A-Za-z_-]{11})`:
first try `[?&]v=`, then `v=`, then capture 11 id characters. -/
def tryVEq : List Char → Option (List Char)
  | c1 :: c2 :: c3 :: rest =>
    if (c1 = '?' ∨ c1 = '&') ∧ c2 = 'v' ∧ c3 = '=' then idTake 11 rest
    else if c1 = 'v' ∧ c2 = '=' then idTake 11 (c3 :: rest)
    else none
  | _ => none

/-- Single-position matcher for `(?:lit)([0-9A-Za-z_-]{11})`. -/
def tryLit (lit : List Char) (s : List Char) : Option (List Char) :=
  match dropLit lit s with
  | some rest => idTake 11 rest
  | none => none

/-- The literal `be/` of pattern `(?:be/)([0-9A-Za-z_-]{11})`. -/
def beLit : List Char := ['b', 'e', '/']

/-- The literal `embed/` of pattern `(?:embed/)([0-9A-Za-z_-]{11})`. -/
def embedLit : List Char := ['e', 'm', 'b', 'e', 'd', '/']

/-- The literal `shorts/` of pattern `(?:shorts/)([0-9A-Za-z_-]{11})`. -/
def shortsLit : List Char := ['s', 'h', 'o', 'r', 't', 's', '/']

/-- The anchored pattern `^([0-9A-Za-z_-]{11})$`: the whole string is one
11-character token. -/
def exactTok (u : List Char) : Option (List Char) :=
  if u.length = 11 ∧ u.all isIdChar then some u else none

/-- The ordered pattern cascade of `parse_video_id`: `v=`, `be/`, `embed/`,
`shorts/`, whole-string token; first match wins. -/
def pvRules (u : List Char) : Option (List Char) :=
  match reSearch tryVEq u with
  | some r => some r
  | none =>
    match reSearch (tryLit beLit) u with
    | some r => some r
    | none =>
      match reSearch (tryLit embedLit) u with
      | some r => some r
      | none =>
        match reSearch (tryLit shortsLit) u with
        | some r => some r
        | none => exactTok u

/-- Error message raised for empty or non-string input to `parse_video_id`. -/
def emptyMsg : List Char := "URL must be a non-empty string".toList

/-- Message stem used when no extraction rule matches; the offending (stripped)
input is appended to it. -/
def noIdMsgStem : List Char := "Could not extract a valid YouTube video ID from: ".toList

/-- `parse_video_id` from `services.py`: strip, reject empty or non-string
input, then try the pattern cascade; `ValueError` is embedded as `.error`. -/
def parse_video_id (v : PyVal) : Except (List Char) (List Char) :=
  match v with
  | .str s =>
    if pyStrip s = [] then .error emptyMsg
    else
      match pvRules (pyStrip s) with
      | some r => .ok r
      | none => .error (noIdMsgStem ++ pyStrip s)
  | _ => .error emptyMsg

/-- The literal `list=` of pattern `[?&]list=([0-9A-Za-z_-]+)`. -/
def listLit : List Char := ['l', 'i', 's', 't', '=']

/-- Single-position matcher for `[?&]list=([0-9A-Za-z_-]+)` (greedy `+`). -/
def tryListParam : List Char → Option (List Char)
  | [] => none
  | c :: rest =>
    if c = '?' ∨ c = '&' then
      match dropLit listLit rest with
      | some r =>
        if r.takeWhile isIdChar = [] then none else some (r.takeWhile isIdChar)
      | none => none
    else none

/-- `parse_playlist_id` from `services.py`: `list=` query parameter, `none`
for non-string input. -/
def parse_playlist_id : PyVal → Option (List Char)
  | .str s => reSearch tryListParam s
  | _ => none

/-- The literal `/channel/UC` opening pattern `/channel/(UC[0-9A-Za-z_-]{22})`. -/
def chanLit : List Char := ['/', 'c', 'h', 'a', 'n', 'n', 'e', 'l', '/', 'U', 'C']

/-- Single-position matcher for `/channel/(UC[0-9A-Za-z_-]{22})`; the capture
group includes the leading `UC`. -/
def tryChan (s : List Char) : Option (List Char) :=
  match dropLit chanLit s with
  | some r =>
    match idTake 22 r with
    | some t => some ('U' :: 'C' :: t)
    | none => none
  | none => none

/-- `parse_channel_id` from `services.py`. -/
def parse_channel_id : PyVal → Option (List Char)
  | .str s => reSearch tryChan s
  | _ => none

/-- The handle character class `[A-Za-z0-9._-]`. -/
def handleChar (c : Char) : Bool :=
  c.isAlphanum || c = '.' || c = '_' || c = '-'

/-- Single-position matcher for `/@([A-Za-z0-9._-]+)` (greedy `+`). -/
def tryHandle (s : List Char) : Option (List Char) :=
  match dropLit ['/', '@'] s with
  | some r =>
    if r.takeWhile handleChar = [] then none else some (r.takeWhile handleChar)
  | none => none

/-- `parse_channel_handle` from `services.py`. -/
def parse_channel_handle : PyVal → Option (List Char)
  | .str s => reSearch tryHandle s
  | _ => none

/-! ## Transcript normalizer (`normalize_transcript` in `services.py`) -/

/-- An exact embedding of a Python float value as a fraction `num / den`.
(Every float is such a fraction; the arithmetic the normalizer performs on it
is exact in the source because it only floors, subtracts integer multiples
and truncates.) -/
structure PyFloat where
  num : Int
  den : Nat
deriving DecidableEq

/-- The rational value denoted by an embedded float. -/
def PyFloat.toRat (x : PyFloat) : ℚ := (x.num : ℚ) / (x.den : ℚ)

/-- Python floor division `x // n` of a float by a positive integer literal:
the result is the float `⌊x / n⌋`. -/
def pfFloorDivNat (x : PyFloat) (n : Nat) : PyFloat :=
  ⟨x.num.fdiv ((n * x.den : Nat) : Int), 1⟩

/-- Python modulo `x % n` of a float by a positive integer literal:
`x - n * (x // n)`. -/
def pfModNat (x : PyFloat) (n : Nat) : PyFloat :=
  ⟨x.num - ((n * x.den : Nat) : Int) * x.num.fdiv ((n * x.den : Nat) : Int), x.den⟩

/-- Python `int(x)` on a float: truncation toward zero. -/
def pfInt (x : PyFloat) : Int := x.num.tdiv x.den

/-- A raw transcript segment dictionary: `text` is `none` when the key is
absent or `None` (Python `seg.get("text") or ""` then maps it to the empty
string), `start` is `none` when absent or `None` (Python treats it as `0`). -/
structure Segment where
  text : Option (List Char)
  start : Option PyFloat
deriving DecidableEq

/-- Decimal rendering of an integer, as Python `str`/`format` produce it. -/
def intStr (i : Int) : List Char :=
  if i < 0 then '-' :: Nat.toDigits 10 (-i).toNat else Nat.toDigits 10 i.toNat

/-- Python `f"{i:02d}"`: zero-pad the decimal form to (at least) two
characters.  For negative values the rendering is already two characters or
wider, so no padding occurs, exactly as in Python at width 2. -/
def pad2 (i : Int) : List Char :=
  List.replicate (2 - (intStr i).length) '0' ++ intStr i

/-- The timestamped line `f"[{minutes:02d}:{seconds:02d}] {text}"` with
`minutes = int(start_seconds // 60)` and `seconds = int(start_seconds % 60)`. -/
def tsLine (st : PyFloat) (text : List Char) : List Char :=
  '[' :: pad2 (pfInt (pfFloorDivNat st 60)) ++ ':' :: pad2 (pfInt (pfModNat st 60)) ++
    ']' :: ' ' :: text

/-- The float zero (`float(... or 0)` when `start` is absent or `None`). -/
def pfZero : PyFloat := ⟨0, 1⟩

/-- The `lines` list built by `normalize_transcript`'s loop. -/
def normLines : List Segment → Bool → List (List Char)
  | [], _ => []
  | seg :: rest, ts =>
    if pyStrip (seg.text.getD []) = [] then normLines rest ts
    else
      (if ts then tsLine (seg.start.getD pfZero) (pyStrip (seg.text.getD []))
       else pyStrip (seg.text.getD [])) :: normLines rest ts

/-- `normalize_transcript` from `services.py`: build the kept lines, then
`"\n".join(lines)`. -/
def normalize_transcript (segments : List Segment) (include_timestamps : Bool) : List Char :=
  List.intercalate ['\n'] (normLines segments include_timestamps)

/-- Modelled from the spec's words (§4.4): trim each segment's text, skip
empty, prefix `[MM:SS]` with `minutes = floor(start / 60)` and
`seconds = floor(start mod 60)` (`start` treated as 0 when absent), both
zero-padded to two digits, join with a single newline and no trailing
newline. -/
def normalizeSpec (segments : List Segment) (ts : Bool) : List Char :=
  List.intercalate ['\n'] (segments.filterMap (fun seg =>
    let text := pyStrip (seg.text.getD [])
    if text = [] then none
    else if ts then
      let st := (seg.start.getD pfZero).toRat
      some ('[' :: pad2 ⌊st / 60⌋ ++ ':' :: pad2 ⌊st - 60 * (⌊st / 60⌋ : ℚ)⌋ ++
        ']' :: ' ' :: text)
    else some text))

/-! ## Provider environment and playlist/channel expansion (`services.py`) -/

/-- One page of the provider's `playlistItems` listing: `items` is the list of
`contentDetails.videoId` values (the empty list stands for an absent or empty
id, both falsy in Python), `next` is whether a (truthy) `nextPageToken` is
present. -/
structure PPage where
  items : List (List Char)
  next : Bool
deriving DecidableEq

/-- The metadata-API environment `expand_inputs_to_video_ids` runs against:
whether an API key is configured, and the provider's responses.
`playlistPages` is the page sequence the provider serves for a playlist id
(`none` when the first request fails); `resolveHandle` and `uploadsPlaylist`
are the search / channel-details lookups (`none` covers failure and falsy
results). -/
structure Env where
  apiKey : Bool
  playlistPages : List Char → Option (List PPage)
  resolveHandle : List Char → Option (List Char)
  uploadsPlaylist : List Char → Option (List Char)

/-- The inner `for it in data["items"]` loop of `expand_playlist_video_ids`:
append each truthy video id, returning early (flag `true`) as soon as
`len(results) >= limit`. -/
def procItems : List (List Char) → Nat → List (List Char) → List (List Char) × Bool
  | [], _, acc => (acc, false)
  | v :: vs, limit, acc =>
    if v = [] then procItems vs limit acc
    else
      if limit ≤ (acc ++ [v]).length then (acc ++ [v], true)
      else procItems vs limit (acc ++ [v])

/-- The `while True` pagination loop of `expand_playlist_video_ids`: process
the current page, stop on early return, missing `nextPageToken`, or a reached
limit; otherwise fetch the next page (an exhausted page list stands for the
`or {}` fallback, which has no items and no token). -/
def epvLoop : List PPage → Nat → List (List Char) → List (List Char)
  | [], _, acc => acc
  | pg :: rest, limit, acc =>
    let pr := procItems pg.items limit acc
    if pr.2 = true then pr.1
    else if pg.next = false ∨ limit ≤ pr.1.length then pr.1
    else epvLoop rest limit pr.1

/-- `expand_playlist_video_ids` from `services.py`, over the provider's page
response sequence (`none`: the first request failed, return `[]`). -/
def expand_playlist_video_ids (pages : Option (List PPage)) (limit : Nat) : List (List Char) :=
  match pages with
  | none => []
  | some ps => epvLoop ps limit []

/-- `expand_channel_recent_video_ids` from `services.py`: channel id directly
from the URL or via handle search, then the uploads playlist, then plain
playlist expansion. -/
def expand_channel_recent_video_ids (env : Env) (channel_url : List Char) (limit : Nat) :
    List (List Char) :=
  let cid :=
    match parse_channel_id (.str channel_url) with
    | some c => some c
    | none =>
      match parse_channel_handle (.str channel_url) with
      | some h => env.resolveHandle h
      | none => none
  match cid with
  | none => []
  | some c =>
    match env.uploadsPlaylist c with
    | none => []
    | some up => expand_playlist_video_ids (env.playlistPages up) limit

/-! ## Input expander (`expand_inputs_to_video_ids` in `services.py`) -/

/-- Error string for an unclassifiable entry of the `urls` list. -/
def unrecMsg (u : List Char) : List Char :=
  "Unrecognized URL (not a video/playlist/channel): ".toList ++ u

/-- Error string for a playlist reference without an API key. -/
def plKeyMsg : List Char :=
  "Playlist expansion requires YOUTUBE_API_KEY / YT_API_KEY.".toList

/-- Error string for an unparseable playlist reference. -/
def plExtractMsg : List Char :=
  "Could not extract playlist ID from playlist_url.".toList

/-- Error string for a channel reference without an API key. -/
def chKeyMsg : List Char :=
  "Channel expansion requires YOUTUBE_API_KEY / YT_API_KEY.".toList

/-- Error string for an unresolvable channel reference. -/
def chResolveMsg : List Char :=
  "Could not resolve channel videos from channel_url.".toList

/-- The `for u in urls` loop: state is `(out, seen, errors)`; `seen` models
the Python set by list membership. -/
def urlsLoop : List (List Char) → List (List Char) → List (List Char) → List (List Char) →
    List (List Char) × List (List Char) × List (List Char)
  | [], out, seen, errors => (out, seen, errors)
  | u :: rest, out, seen, errors =>
    match parse_video_id (.str u) with
    | .ok vid =>
      if vid ∈ seen then urlsLoop rest out seen errors
      else urlsLoop rest (out ++ [vid]) (vid :: seen) errors
    | .error _ =>
      let pl := parse_playlist_id (.str u)
      let ch :=
        match parse_channel_id (.str u) with
        | some c => some c
        | none => parse_channel_handle (.str u)
      if pl = none ∧ ch = none then urlsLoop rest out seen (errors ++ [unrecMsg u])
      else urlsLoop rest out seen errors

/-- The `for v in vids` merge loops of the playlist/channel branches. -/
def mergeVids : List (List Char) → List (List Char) → List (List Char) →
    List (List Char) × List (List Char)
  | [], out, seen => (out, seen)
  | v :: vs, out, seen =>
    if v ∈ seen then mergeVids vs out seen
    else mergeVids vs (out ++ [v]) (v :: seen)

/-- `expand_inputs_to_video_ids` from `services.py`: urls loop, then playlist
branch, then channel branch; returns `(video_ids, errors)`. -/
def expand_inputs_to_video_ids (env : Env) (urls : List (List Char))
    (playlist_url channel_url : Option (List Char)) (limit : Nat) :
    List (List Char) × List (List Char) :=
  let s1 := urlsLoop urls [] [] []
  let s2 :=
    match playlist_url with
    | none => s1
    | some p =>
      if p = [] then s1
      else if env.apiKey = false then (s1.1, s1.2.1, s1.2.2 ++ [plKeyMsg])
      else
        match parse_playlist_id (.str p) with
        | some plid =>
          let vids := expand_playlist_video_ids (env.playlistPages plid) limit
          let m := mergeVids vids s1.1 s1.2.1
          (m.1, m.2, s1.2.2)
        | none => (s1.1, s1.2.1, s1.2.2 ++ [plExtractMsg])
  let s3 :=
    match channel_url with
    | none => s2
    | some c =>
      if c = [] then s2
      else if env.apiKey = false then (s2.1, s2.2.1, s2.2.2 ++ [chKeyMsg])
      else
        let vids := expand_channel_recent_video_ids env c limit
        if vids = [] then (s2.1, s2.2.1, s2.2.2 ++ [chResolveMsg])
        else
          let m := mergeVids vids s2.1 s2.2.1
          (m.1, m.2, s2.2.2)
  (s3.1, s3.2.2)

/-! ## Filename sanitizing and uniquification (`services.py` / `main.py`) -/

/-- The characters `\ / : * ? " < > |` stripped by `sanitize_filename`. -/
def badChar (c : Char) : Bool :=
  c = '\\' || c = '/' || c = ':' || c = '*' || c = '?' || c = '"' || c = '<' || c = '>' || c = '|'

/-- `sanitize_filename` from `services.py`: remove the reserved characters,
strip, fall back to `"transcript"` when empty, truncate to 120 characters. -/
def sanitize_filename (name : List Char) : List Char :=
  let cleaned := pyStrip (name.filter (fun c => badChar c = false))
  (if cleaned = [] then "transcript".toList else cleaned).take 120

/-- Lookup in the embedded `used` counter dictionary. -/
def dlookup : List (List Char × Nat) → List Char → Option Nat
  | [], _ => none
  | (k, v) :: rest, b => if k = b then some v else dlookup rest b

/-- Store a counter in the embedded dictionary (newest binding shadows). -/
def dset (m : List (List Char × Nat)) (b : List Char) (n : Nat) : List (List Char × Nat) :=
  (b, n) :: m

/-- `unique_name` from `services.py`: first use of a base is unsuffixed and
stores count 1; later uses increment the count `n` and return `base (n)`. -/
def unique_name (base : List Char) (used : List (List Char × Nat)) :
    List Char × List (List Char × Nat) :=
  match dlookup used base with
  | none => (base, dset used base 1)
  | some n =>
    (base ++ (' ' :: '(' :: Nat.toDigits 10 (n + 1)) ++ [')'], dset used base (n + 1))

/-- Run `unique_name` over a sequence of base names with the dictionary
threaded through, as the bulk endpoint's loop does. -/
def nameRun : List (List Char) → List (List Char × Nat) → List (List Char)
  | [], _ => []
  | b :: bs, used =>
    match unique_name b used with
    | (nm, used2) => nm :: nameRun bs used2

/-! ## Bulk endpoint (`bulk_transcripts_endpoint` in `main.py`) -/

/-- The transcript/metadata environment of the bulk loop: `fetchT` is
`fetch_transcript` (already normalized text, or the `ValueError` message) and
`title` is `fetch_video_title` (`none` covers lookup failure and falsy
titles). -/
structure BulkEnv where
  fetchT : List Char → Except (List Char) (List Char)
  title : List Char → Option (List Char)

/-- The bulk endpoint's response: a 400 JSON error, or a ZIP archive embedded
as a list of (filename, content) entries. -/
inductive BulkResp where
  | badRequest (detail : List Char) (expansion_errors : List (List Char))
  | archive (entries : List (List Char × List Char))
deriving DecidableEq

/-- The 400 detail message of the bulk endpoint. -/
def noVideosMsg : List Char :=
  "No videos to process. Provide valid video URLs or set YOUTUBE_API_KEY for playlist/channel expansion.".toList

/-- The `for vid in video_ids` loop of the bulk endpoint: write one `.txt`
entry per fetched transcript, record `"<vid>: <msg>"` for each failure. -/
def bulkLoop (benv : BulkEnv) : List (List Char) → List (List Char × List Char) →
    List (List Char × Nat) → List (List Char) → List (List Char × List Char) × List (List Char)
  | [], entries, _, errors => (entries, errors)
  | vid :: rest, entries, used, errors =>
    match benv.fetchT vid with
    | .error e => bulkLoop benv rest entries used (errors ++ [vid ++ ':' :: ' ' :: e])
    | .ok text =>
      let t :=
        match benv.title vid with
        | some s => if s = [] then vid else s
        | none => vid
      match unique_name (sanitize_filename t) used with
      | (uniq, used2) =>
        bulkLoop benv rest (entries ++ [(uniq ++ ".txt".toList, text)]) used2 errors

/-- `bulk_transcripts_endpoint` from `main.py`: expand, fail with 400 when no
ids were produced, otherwise build the archive and append the error report. -/
def bulk_transcripts_endpoint (env : Env) (benv : BulkEnv) (urls : List (List Char))
    (playlist_url channel_url : Option (List Char)) (limit : Nat) : BulkResp :=
  let r := expand_inputs_to_video_ids env urls playlist_url channel_url limit
  if r.1 = [] then .badRequest noVideosMsg r.2
  else
    match bulkLoop benv r.1 [] [] [] with
    | (entries, perrs) =>
      let errs := perrs ++ r.2.map (fun e => "[expand] ".toList ++ e)
      .archive
        (if errs = [] then entries
         else entries ++ [("errors_report.txt".toList, List.intercalate ['\n'] errs)])

/-! ## Spec-side comparators (each modelled from the spec's words) -/

/-- Modelled from the spec: ordered-set merge — keep the first occurrence of
each element not already `seen`, preserving order. -/
def dedupFrom (seen : List (List Char)) : List (List Char) → List (List Char)
  | [] => []
  | x :: xs => if x ∈ seen then dedupFrom seen xs else x :: dedupFrom (x :: seen) xs

/-- The seen-set (as a list) after first-seen processing of a list. -/
def seenAfter (seen : List (List Char)) : List (List Char) → List (List Char)
  | [] => seen
  | x :: xs => if x ∈ seen then seenAfter seen xs else seenAfter (x :: seen) xs

/-- The video ids successfully parsed from the `urls` list, in input order. -/
def parsedUrlIds (urls : List (List Char)) : List (List Char) :=
  urls.filterMap (fun u => (parse_video_id (.str u)).toOption)

/-- The ids contributed by the separate playlist reference (empty when the
reference is absent, falsy, keyless or unparseable). -/
def plVids (env : Env) (playlist_url : Option (List Char)) (limit : Nat) : List (List Char) :=
  match playlist_url with
  | none => []
  | some p =>
    if p = [] then []
    else if env.apiKey = false then []
    else
      match parse_playlist_id (.str p) with
      | some plid => expand_playlist_video_ids (env.playlistPages plid) limit
      | none => []

/-- The ids contributed by the separate channel reference. -/
def chVids (env : Env) (channel_url : Option (List Char)) (limit : Nat) : List (List Char) :=
  match channel_url with
  | none => []
  | some c =>
    if c = [] then []
    else if env.apiKey = false then []
    else expand_channel_recent_video_ids env c limit

/-- Modelled from the spec: the merged candidate stream, in source order
`urls`, then playlist, then channel. -/
def expandCandidates (env : Env) (urls : List (List Char))
    (playlist_url channel_url : Option (List Char)) (limit : Nat) : List (List Char) :=
  parsedUrlIds urls ++ plVids env playlist_url limit ++ chVids env channel_url limit

/-- The error strings produced by the `urls` loop: exactly one per entry that
neither parses as a video nor classifies as playlist/channel. -/
def urlErrs (urls : List (List Char)) : List (List Char) :=
  urls.filterMap (fun u =>
    match parse_video_id (.str u) with
    | .ok _ => none
    | .error _ =>
      if parse_playlist_id (.str u) = none ∧
          (match parse_channel_id (.str u) with
           | some c => some c
           | none => parse_channel_handle (.str u)) = none
      then some (unrecMsg u) else none)

/-- The error strings produced by the playlist branch. -/
def plErrs (env : Env) (playlist_url : Option (List Char)) : List (List Char) :=
  match playlist_url with
  | none => []
  | some p =>
    if p = [] then []
    else if env.apiKey = false then [plKeyMsg]
    else
      match parse_playlist_id (.str p) with
      | some _ => []
      | none => [plExtractMsg]

/-- The error strings produced by the channel branch. -/
def chErrs (env : Env) (channel_url : Option (List Char)) (limit : Nat) : List (List Char) :=
  match channel_url with
  | none => []
  | some c =>
    if c = [] then []
    else if env.apiKey = false then [chKeyMsg]
    else if expand_channel_recent_video_ids env c limit = [] then [chResolveMsg] else []

/-- The VideoIdentifier invariant of the spec's data model: an 11-character
token over `[0-9A-Za-z_-]`. -/
def isValidId (s : List Char) : Bool :=
  s.length = 11 && s.all isIdChar

/-- Modelled from the spec: the stream of truthy video ids served page by
page, cut off at the first page without a next-page token. -/
def pageStream : List PPage → List (List Char)
  | [] => []
  | pg :: rest =>
    pg.items.filter (fun v => v ≠ []) ++ (if pg.next then pageStream rest else [])

/-- Modelled from the spec: the k-th use of a base name yields the base
unsuffixed for k = 1 and `base (k)` for k ≥ 2; `counts` tallies previous
uses. -/
def specNames (counts : List Char → Nat) : List (List Char) → List (List Char)
  | [] => []
  | b :: bs =>
    (if counts b + 1 = 1 then b
     else b ++ (' ' :: '(' :: Nat.toDigits 10 (counts b + 1)) ++ [')']) ::
      specNames (fun x => if x = b then counts b + 1 else counts x) bs

/-- The `https://www.youtube.com/watch?v=` URL shape. -/
def watchPre : List Char :=
  ['h', 't', 't', 'p', 's', ':', '/', '/', 'w', 'w', 'w', '.', 'y', 'o', 'u', 't', 'u', 'b',
   'e', '.', 'c', 'o', 'm', '/', 'w', 'a', 't', 'c', 'h', '?', 'v', '=']

/-- The `https://youtu.be/` URL shape. -/
def shortPre : List Char :=
  ['h', 't', 't', 'p', 's', ':', '/', '/', 'y', 'o', 'u', 't', 'u', '.', 'b', 'e', '/']

/-- The `https://www.youtube.com/embed/` URL shape. -/
def embedPre : List Char :=
  ['h', 't', 't', 'p', 's', ':', '/', '/', 'w', 'w', 'w', '.', 'y', 'o', 'u', 't', 'u', 'b',
   'e', '.', 'c', 'o', 'm', '/', 'e', 'm', 'b', 'e', 'd', '/']

/-- The `https://www.youtube.com/shorts/` URL shape. -/
def shortsPre : List Char :=
  ['h', 't', 't', 'p', 's', ':', '/', '/', 'w', 'w', 'w', '.', 'y', 'o', 'u', 't', 'u', 'b',
   'e', '.', 'c', 'o', 'm', '/', 's', 'h', 'o', 'r', 't', 's', '/']

/-- `true` on the `.error` constructor. -/
def isErr {ε α : Type} : Except ε α → Bool
  | .error _ => true
  | .ok _ => false

/-- The channel classifier applied to a `urls` entry:
`parse_channel_id(u) or parse_channel_handle(u)`. -/
def chClassify (u : List Char) : Option (List Char) :=
  match parse_channel_id (.str u) with
  | some c => some c
  | none => parse_channel_handle (.str u)

/-! ## Lemmas: first-seen merge -/

theorem mergeVids_spec (vs : List (List Char)) : ∀ out seen,
    mergeVids vs out seen = (out ++ dedupFrom seen vs, seenAfter seen vs) := by
  induction vs with
  | nil => intro out seen; simp [mergeVids, dedupFrom, seenAfter]
  | cons v vs ih =>
    intro out seen
    by_cases hv : v ∈ seen
    · simp [mergeVids, dedupFrom, seenAfter, hv, ih]
    · simp [mergeVids, dedupFrom, seenAfter, hv, ih]

theorem dedupFrom_append (a : List (List Char)) : ∀ (b : List (List Char)) seen,
    dedupFrom seen (a ++ b) = dedupFrom seen a ++ dedupFrom (seenAfter seen a) b := by
  induction a with
  | nil => intro b seen; simp [dedupFrom, seenAfter]
  | cons x xs ih =>
    intro b seen
    by_cases hx : x ∈ seen
    · simp [dedupFrom, seenAfter, hx, ih]
    · simp [dedupFrom, seenAfter, hx, ih]

theorem dedupFrom_not_mem_seen (l : List (List Char)) : ∀ seen x,
    x ∈ dedupFrom seen l → x ∉ seen := by
  induction l with
  | nil => intro seen x hx; simp [dedupFrom] at hx
  | cons y ys ih =>
    intro seen x hx
    by_cases hy : y ∈ seen
    · exact ih seen x (by simpa [dedupFrom, hy] using hx)
    · rw [dedupFrom, if_neg hy] at hx
      rcases List.mem_cons.1 hx with rfl | hx
      · exact hy
      · intro hmem
        exact ih (y :: seen) x hx (List.mem_cons_of_mem y hmem)

theorem dedupFrom_nodup (l : List (List Char)) : ∀ seen, (dedupFrom seen l).Nodup := by
  induction l with
  | nil => intro seen; simp [dedupFrom]
  | cons y ys ih =>
    intro seen
    by_cases hy : y ∈ seen
    · simpa [dedupFrom, hy] using ih seen
    · rw [dedupFrom, if_neg hy]
      refine List.nodup_cons.2 ⟨?_, ih (y :: seen)⟩
      intro hmem
      exact dedupFrom_not_mem_seen ys (y :: seen) y hmem (List.mem_cons_self y seen)

theorem dedupFrom_subset (l : List (List Char)) : ∀ seen x,
    x ∈ dedupFrom seen l → x ∈ l := by
  induction l with
  | nil => intro seen x hx; simp [dedupFrom] at hx
  | cons y ys ih =>
    intro seen x hx
    by_cases hy : y ∈ seen
    · exact List.mem_cons_of_mem y (ih seen x (by simpa [dedupFrom, hy] using hx))
    · rw [dedupFrom, if_neg hy] at hx
      rcases List.mem_cons.1 hx with rfl | hx
      · exact List.mem_cons_self x ys
      · exact List.mem_cons_of_mem y (ih (y :: seen) x hx)

/-! ## Lemmas: the urls loop and the expander -/

theorem urlsLoop_spec (ws : List (List Char)) : ∀ out seen errors,
    urlsLoop ws out seen errors =
      (out ++ dedupFrom seen (parsedUrlIds ws), seenAfter seen (parsedUrlIds ws),
        errors ++ urlErrs ws) := by
  induction ws with
  | nil => intro out seen errors; simp [urlsLoop, parsedUrlIds, urlErrs, dedupFrom, seenAfter]
  | cons u rest ih =>
    intro out seen errors
    rcases hpv : parse_video_id (.str u) with e | vid
    · rw [urlsLoop]
      by_cases hcl : parse_playlist_id (.str u) = none ∧
          (match parse_channel_id (.str u) with
           | some c => some c
           | none => parse_channel_handle (.str u)) = none
      · simp only [hpv, hcl, if_pos, ih]
        simp [parsedUrlIds, urlErrs, List.filterMap_cons, hpv, hcl, Except.toOption]
      · simp only [hpv, if_neg hcl, ih]
        simp [parsedUrlIds, urlErrs, List.filterMap_cons, hpv, hcl, Except.toOption]
    · rw [urlsLoop]
      by_cases hv : vid ∈ seen
      · simp only [hpv, hv, if_pos, ih]
        simp [parsedUrlIds, urlErrs, List.filterMap_cons, hpv, Except.toOption, dedupFrom,
          seenAfter, hv]
      · simp only [hpv, hv, if_neg, ih]
        simp [parsedUrlIds, urlErrs, List.filterMap_cons, hpv, Except.toOption, dedupFrom,
          seenAfter, hv]

theorem seenAfter_append (a : List (List Char)) : ∀ (b : List (List Char)) seen,
    seenAfter seen (a ++ b) = seenAfter (seenAfter seen a) b := by
  induction a with
  | nil => intro b seen; simp [seenAfter]
  | cons x xs ih =>
    intro b seen
    by_cases hx : x ∈ seen
    · simp [seenAfter, hx, ih]
    · simp [seenAfter, hx, ih]

/-- Master characterization of `expand_inputs_to_video_ids`: the id list is
the first-seen deduplication of the three merged candidate streams, and the
error list is the concatenation of the three branch error lists. -/
theorem expand_inputs_spec (env : Env) (urls : List (List Char))
    (playlist_url channel_url : Option (List Char)) (limit : Nat) :
    expand_inputs_to_video_ids env urls playlist_url channel_url limit =
      (dedupFrom [] (expandCandidates env urls playlist_url channel_url limit),
        urlErrs urls ++ plErrs env playlist_url ++ chErrs env channel_url limit) := by
  unfold expand_inputs_to_video_ids
  rw [urlsLoop_spec]
  rw [expandCandidates, dedupFrom_append, dedupFrom_append, seenAfter_append]
  rcases playlist_url with _ | p
  · rcases channel_url with _ | c
    · simp [plVids, chVids, plErrs, chErrs, dedupFrom, seenAfter]
    · by_cases hc : c = []
      · simp [plVids, chVids, plErrs, chErrs, dedupFrom, seenAfter, hc]
      · by_cases hk : env.apiKey = false
        · simp [plVids, chVids, plErrs, chErrs, dedupFrom, seenAfter, hc, hk]
        · by_cases hv : expand_channel_recent_video_ids env c limit = []
          · simp [plVids, chVids, plErrs, chErrs, dedupFrom, seenAfter, hc, hk, hv]
          · simp [plVids, chVids, plErrs, chErrs, dedupFrom, seenAfter, hc, hk, hv,
              mergeVids_spec]
  · by_cases hp : p = []
    · rcases channel_url with _ | c
      · simp [plVids, chVids, plErrs, chErrs, dedupFrom, seenAfter, hp]
      · by_cases hc : c = []
        · simp [plVids, chVids, plErrs, chErrs, dedupFrom, seenAfter, hp, hc]
        · by_cases hk : env.apiKey = false
          · simp [plVids, chVids, plErrs, chErrs, dedupFrom, seenAfter, hp, hc, hk]
          · by_cases hv : expand_channel_recent_video_ids env c limit = []
            · simp [plVids, chVids, plErrs, chErrs, dedupFrom, seenAfter, hp, hc, hk, hv]
            · simp [plVids, chVids, plErrs, chErrs, dedupFrom, seenAfter, hp, hc, hk, hv,
                mergeVids_spec]
    · by_cases hk : env.apiKey = false
      · rcases channel_url with _ | c
        · simp [plVids, chVids, plErrs, chErrs, dedupFrom, seenAfter, hp, hk]
        · by_cases hc : c = []
          · simp [plVids, chVids, plErrs, chErrs, dedupFrom, seenAfter, hp, hk, hc]
          · simp [plVids, chVids, plErrs, chErrs, dedupFrom, seenAfter, hp, hk, hc]
      · rcases hpl : parse_playlist_id (.str p) with _ | plid
        · rcases channel_url with _ | c
          · simp [plVids, chVids, plErrs, chErrs, dedupFrom, seenAfter, hp, hk, hpl]
          · by_cases hc : c = []
            · simp [plVids, chVids, plErrs, chErrs, dedupFrom, seenAfter, hp, hk, hpl, hc]
            · by_cases hv : expand_channel_recent_video_ids env c limit = []
              · simp [plVids, chVids, plErrs, chErrs, dedupFrom, seenAfter, hp, hk, hpl, hc, hv]
              · simp [plVids, chVids, plErrs, chErrs, dedupFrom, seenAfter, hp, hk, hpl, hc, hv,
                  mergeVids_spec]
        · rcases channel_url with _ | c
          · simp [plVids, chVids, plErrs, chErrs, dedupFrom, seenAfter, hp, hk, hpl,
              mergeVids_spec]
          · by_cases hc : c = []
            · simp [plVids, chVids, plErrs, chErrs, dedupFrom, seenAfter, hp, hk, hpl, hc,
                mergeVids_spec]
            · by_cases hv : expand_channel_recent_video_ids env c limit = []
              · simp [plVids, chVids, plErrs, chErrs, dedupFrom, seenAfter, hp, hk, hpl, hc, hv,
                  mergeVids_spec]
              · simp [plVids, chVids, plErrs, chErrs, dedupFrom, seenAfter, hp, hk, hpl, hc, hv,
                  mergeVids_spec]

/-- C1: for every input batch, the identifier list returned by
`expand_inputs_to_video_ids` is the first-seen deduplication of the three
candidate streams merged in the order urls, playlist, channel — hence it has
no duplicates and lists identifiers in first-seen order; in particular a video
id supplied twice appears exactly once, at its first position. -/
theorem expand_dedup_first_seen (env : Env) (urls : List (List Char))
    (playlist_url channel_url : Option (List Char)) (limit : Nat) :
    (expand_inputs_to_video_ids env urls playlist_url channel_url limit).1 =
      dedupFrom [] (expandCandidates env urls playlist_url channel_url limit) ∧
    (expand_inputs_to_video_ids env urls playlist_url channel_url limit).1.Nodup := by
  rw [expand_inputs_spec]
  exact ⟨rfl, dedupFrom_nodup _ _⟩

theorem parsedUrlIds_append (a b : List (List Char)) :
    parsedUrlIds (a ++ b) = parsedUrlIds a ++ parsedUrlIds b := by
  simp [parsedUrlIds]

theorem urlErrs_append (a b : List (List Char)) :
    urlErrs (a ++ b) = urlErrs a ++ urlErrs b := by
  simp [urlErrs]

/-- C9: a `urls` entry that fails video-id parsing and matches no
playlist/channel classifier contributes exactly one error string naming it and
zero identifiers, leaving every other entry's processing unchanged; an entry
that is playlist- or channel-shaped is silently accepted, with no error and no
identifiers. -/
theorem expand_unrecognized_url_entry (env : Env) (pre post : List (List Char)) (u : List Char)
    (playlist_url channel_url : Option (List Char)) (limit : Nat)
    (hfail : isErr (parse_video_id (.str u)) = true) :
    (¬ (parse_playlist_id (.str u) = none ∧ chClassify u = none) →
      expand_inputs_to_video_ids env (pre ++ u :: post) playlist_url channel_url limit =
        expand_inputs_to_video_ids env (pre ++ post) playlist_url channel_url limit) ∧
    ((parse_playlist_id (.str u) = none ∧ chClassify u = none) →
      expand_inputs_to_video_ids env (pre ++ u :: post) playlist_url channel_url limit =
        ((expand_inputs_to_video_ids env (pre ++ post) playlist_url channel_url limit).1,
          urlErrs pre ++ unrecMsg u ::
            (urlErrs post ++ plErrs env playlist_url ++ chErrs env channel_url limit))) := by
  rcases hpv : parse_video_id (.str u) with e | vid
  · have hpar : parsedUrlIds (pre ++ u :: post) = parsedUrlIds (pre ++ post) := by
      rw [show pre ++ u :: post = pre ++ [u] ++ post by simp, parsedUrlIds_append,
        parsedUrlIds_append, parsedUrlIds_append]
      simp [parsedUrlIds, List.filterMap_cons, hpv, Except.toOption]
    constructor
    · intro hcl
      have herr : urlErrs (pre ++ u :: post) = urlErrs (pre ++ post) := by
        rw [show pre ++ u :: post = pre ++ [u] ++ post by simp, urlErrs_append,
          urlErrs_append, urlErrs_append]
        simp only [urlErrs, List.filterMap_cons, hpv]
        rw [if_neg (by simpa [chClassify] using hcl)]
        simp
      rw [expand_inputs_spec, expand_inputs_spec, expandCandidates, expandCandidates,
        hpar, herr]
    · intro hcl
      have herr : urlErrs (pre ++ u :: post) = urlErrs pre ++ unrecMsg u :: urlErrs post := by
        rw [show pre ++ u :: post = pre ++ [u] ++ post by simp, urlErrs_append, urlErrs_append]
        simp only [urlErrs, List.filterMap_cons, hpv]
        rw [if_pos (by simpa [chClassify] using hcl)]
        simp
      rw [expand_inputs_spec, expand_inputs_spec, expandCandidates, expandCandidates,
        hpar, herr]
      simp
  · simp [isErr, hpv] at hfail

-- Witness for C9 at a concrete batch: a search-engine URL between two
-- recognized entries yields exactly one error naming it and no ids.
theorem expand_unrecognized_url_entry_witness :
    expand_inputs_to_video_ids ⟨false, fun _ => none, fun _ => none, fun _ => none⟩
        ["dQw4w9WgXcQ".toList, "https://example.com".toList] none none 50 =
      ((expand_inputs_to_video_ids ⟨false, fun _ => none, fun _ => none, fun _ => none⟩
          ["dQw4w9WgXcQ".toList] none none 50).1,
        urlErrs ["dQw4w9WgXcQ".toList] ++ unrecMsg "https://example.com".toList ::
          (urlErrs [] ++ plErrs ⟨false, fun _ => none, fun _ => none, fun _ => none⟩ none ++
            chErrs ⟨false, fun _ => none, fun _ => none, fun _ => none⟩ none 50)) :=
  (expand_unrecognized_url_entry ⟨false, fun _ => none, fun _ => none, fun _ => none⟩
    ["dQw4w9WgXcQ".toList] [] "https://example.com".toList none none 50 (by decide)).2
    (by decide)

/-! ## Lemmas: validity of parsed captures -/

theorem idTake_spec (n : Nat) : ∀ l r, idTake n l = some r →
    r.length = n ∧ r.all isIdChar = true := by
  induction n with
  | zero =>
    intro l r h
    rw [idTake] at h
    cases h
    simp
  | succ n ih =>
    intro l r h
    match l with
    | [] => simp [idTake] at h
    | c :: cs =>
      rw [idTake] at h
      by_cases hc : isIdChar c
      · rw [if_pos hc] at h
        rcases ht : idTake n cs with _ | t
        · rw [ht] at h; cases h
        · rw [ht] at h
          cases h
          rcases ih cs t ht with ⟨hl, ha⟩
          refine ⟨by simp [hl], ?_⟩
          simp [List.all_cons, hc, ha]
      · rw [if_neg hc] at h; cases h

theorem reSearch_capture (f : List Char → Option (List Char)) (P : List Char → Prop)
    (hf : ∀ s r, f s = some r → P r) : ∀ l r, reSearch f l = some r → P r := by
  intro l
  induction l with
  | nil => intro r h; exact hf [] r (by simpa [reSearch] using h)
  | cons c cs ih =>
    intro r h
    rw [reSearch] at h
    rcases hc : f (c :: cs) with _ | r2
    · rw [hc] at h; exact ih r h
    · rw [hc] at h; cases h; exact hf _ _ hc

theorem tryVEq_capture (s r : List Char) (h : tryVEq s = some r) : isValidId r = true := by
  match s with
  | [] => simp [tryVEq] at h
  | [c1] => simp [tryVEq] at h
  | [c1, c2] => simp [tryVEq] at h
  | c1 :: c2 :: c3 :: rest =>
    rw [tryVEq] at h
    split at h
    · rcases idTake_spec 11 rest r h with ⟨hl, ha⟩
      simp [isValidId, hl, ha]
    · split at h
      · rcases idTake_spec 11 (c3 :: rest) r h with ⟨hl, ha⟩
        simp [isValidId, hl, ha]
      · cases h

theorem tryLit_capture (lit s r : List Char) (h : tryLit lit s = some r) :
    isValidId r = true := by
  rw [tryLit] at h
  rcases hd : dropLit lit s with _ | rest
  · rw [hd] at h; cases h
  · rw [hd] at h
    rcases idTake_spec 11 rest r h with ⟨hl, ha⟩
    simp [isValidId, hl, ha]

theorem exactTok_capture (u r : List Char) (h : exactTok u = some r) : isValidId r = true := by
  rw [exactTok] at h
  split at h
  · cases h
    rename_i hc
    simp [isValidId, hc.1, hc.2]
  · cases h

theorem parse_video_id_ok_valid (v : PyVal) (r : List Char)
    (h : parse_video_id v = .ok r) : isValidId r = true := by
  match v with
  | .pyNone => simp [parse_video_id] at h
  | .pyOther => simp [parse_video_id] at h
  | .str s =>
    rw [parse_video_id] at h
    split at h
    · cases h
    · rcases hr : pvRules (pyStrip s) with _ | r2
      · rw [hr] at h; cases h
      · rw [hr] at h
        cases h
        rw [pvRules] at hr
        rcases h1 : reSearch tryVEq (pyStrip s) with _ | r1
        · rw [h1] at hr
          rcases h2 : reSearch (tryLit beLit) (pyStrip s) with _ | r2
          · rw [h2] at hr
            rcases h3 : reSearch (tryLit embedLit) (pyStrip s) with _ | r3
            · rw [h3] at hr
              rcases h4 : reSearch (tryLit shortsLit) (pyStrip s) with _ | r4
              · rw [h4] at hr
                exact exactTok_capture _ _ hr
              · rw [h4] at hr; cases hr
                exact reSearch_capture _ (fun r => isValidId r = true)
                  (fun s r h => tryLit_capture _ _ _ h) _ _ h4
            · rw [h3] at hr; cases hr
              exact reSearch_capture _ (fun r => isValidId r = true)
                (fun s r h => tryLit_capture _ _ _ h) _ _ h3
          · rw [h2] at hr; cases hr
            exact reSearch_capture _ (fun r => isValidId r = true)
              (fun s r h => tryLit_capture _ _ _ h) _ _ h2
        · rw [h1] at hr; cases hr
          exact reSearch_capture _ (fun r => isValidId r = true)
            (fun s r h => tryVEq_capture _ _ h) _ _ h1

/-- C6 (amended): every identifier contributed by the `urls` list satisfies
the 11-character VideoIdentifier invariant, and the whole output satisfies it
provided the ids served by the provider for playlist and channel expansion
do; the code does not itself validate provider-served ids. -/
theorem expand_ids_valid_of_provider_valid (env : Env) (urls : List (List Char))
    (playlist_url channel_url : Option (List Char)) (limit : Nat)
    (hpl : ∀ v ∈ plVids env playlist_url limit, isValidId v = true)
    (hch : ∀ v ∈ chVids env channel_url limit, isValidId v = true) :
    ∀ v ∈ (expand_inputs_to_video_ids env urls playlist_url channel_url limit).1,
      isValidId v = true := by
  intro v hv
  rw [expand_inputs_spec] at hv
  have hm := dedupFrom_subset _ _ _ hv
  rw [expandCandidates] at hm
  rcases List.mem_append.1 hm with hm | hm
  · rcases List.mem_append.1 hm with hm | hm
    · rcases List.mem_filterMap.1 hm with ⟨u, _, hu⟩
      rcases hpv : parse_video_id (.str u) with e | vid
      · rw [hpv] at hu; cases hu
      · rw [hpv] at hu
        cases hu
        exact parse_video_id_ok_valid _ _ hpv
    · exact hpl v hm
  · exact hch v hm

-- Witness for C6 at a concrete batch with empty provider contributions.
theorem expand_ids_valid_witness :
    ((expand_inputs_to_video_ids ⟨false, fun _ => none, fun _ => none, fun _ => none⟩
        ["https://youtu.be/dQw4w9WgXcQ".toList] none none 50).1.all isValidId) = true := by
  rw [List.all_eq_true]
  intro v hv
  have := expand_ids_valid_of_provider_valid
    ⟨false, fun _ => none, fun _ => none, fun _ => none⟩
    ["https://youtu.be/dQw4w9WgXcQ".toList] none none 50 (by decide) (by decide) v hv
  simpa using this

/-- Counterexample to C6 as stated: with a provider that serves the 1-character
id `x` for a playlist, the expander emits `x`, which violates the
VideoIdentifier invariant; provider-served ids are merged unvalidated. -/
theorem expand_ids_valid_cex :
    (expand_inputs_to_video_ids
        ⟨true, fun _ => some [⟨[['x']], false⟩], fun _ => none, fun _ => none⟩
        [] (some ['?', 'l', 'i', 's', 't', '=', 'P', 'L']) none 50).1 = [['x']] ∧
    isValidId ['x'] = false := by decide

/-- C5: a bulk request whose expansion yields zero identifiers fails with a
400 response carrying the accumulated expansion errors verbatim, and no
archive is produced; when at least one identifier was produced, an archive is
returned. -/
theorem bulk_zero_ids_400 (env : Env) (benv : BulkEnv) (urls : List (List Char))
    (playlist_url channel_url : Option (List Char)) (limit : Nat) :
    ((expand_inputs_to_video_ids env urls playlist_url channel_url limit).1 = [] →
      bulk_transcripts_endpoint env benv urls playlist_url channel_url limit =
        .badRequest noVideosMsg
          (expand_inputs_to_video_ids env urls playlist_url channel_url limit).2) ∧
    ((expand_inputs_to_video_ids env urls playlist_url channel_url limit).1 ≠ [] →
      ∃ es, bulk_transcripts_endpoint env benv urls playlist_url channel_url limit =
        .archive es) := by
  constructor
  · intro h
    unfold bulk_transcripts_endpoint
    rw [if_pos h]
  · intro h
    unfold bulk_transcripts_endpoint
    rw [if_neg h]
    exact ⟨_, rfl⟩

-- Witness for C5: one batch with no resolvable input (400 with the error
-- verbatim), one with a resolvable id (archive).
theorem bulk_zero_ids_400_witness :
    bulk_transcripts_endpoint ⟨false, fun _ => none, fun _ => none, fun _ => none⟩
        ⟨fun _ => .ok ['h', 'i'], fun _ => none⟩
        ["https://example.com".toList] none none 50 =
      .badRequest noVideosMsg
        (expand_inputs_to_video_ids ⟨false, fun _ => none, fun _ => none, fun _ => none⟩
          ["https://example.com".toList] none none 50).2 ∧
    ∃ es, bulk_transcripts_endpoint ⟨false, fun _ => none, fun _ => none, fun _ => none⟩
        ⟨fun _ => .ok ['h', 'i'], fun _ => none⟩
        ["dQw4w9WgXcQ".toList] none none 50 = .archive es :=
  ⟨(bulk_zero_ids_400 ⟨false, fun _ => none, fun _ => none, fun _ => none⟩
      ⟨fun _ => .ok ['h', 'i'], fun _ => none⟩
      ["https://example.com".toList] none none 50).1 (by decide),
   (bulk_zero_ids_400 ⟨false, fun _ => none, fun _ => none, fun _ => none⟩
      ⟨fun _ => .ok ['h', 'i'], fun _ => none⟩
      ["dQw4w9WgXcQ".toList] none none 50).2 (by decide)⟩

/-! ## Lemmas: playlist pagination -/

theorem procItems_spec (items : List (List Char)) : ∀ (limit : Nat) (acc : List (List Char)),
    acc.length < limit →
    procItems items limit acc =
      (acc ++ (items.filter (fun v => v ≠ [])).take (limit - acc.length),
        decide (limit ≤ acc.length + (items.filter (fun v => v ≠ [])).length)) := by
  induction items with
  | nil =>
    intro limit acc h
    rw [procItems]
    simp only [List.filter_nil, List.take_nil, List.append_nil, List.length_nil, Nat.add_zero]
    rw [decide_eq_false (by omega)]
  | cons v vs ih =>
    intro limit acc h
    rw [procItems]
    by_cases hv : v = []
    · rw [if_pos hv, ih limit acc h]
      simp [List.filter_cons, hv]
    · rw [if_neg hv]
      have hfc : (v :: vs).filter (fun v => v ≠ []) = v :: vs.filter (fun v => v ≠ []) := by
        simp [List.filter_cons, hv]
      rw [hfc]
      have hlen : (acc ++ [v]).length = acc.length + 1 := by simp
      by_cases hl : limit ≤ (acc ++ [v]).length
      · rw [if_pos hl]
        rw [hlen] at hl
        have h1 : limit - acc.length = 1 := by omega
        rw [h1, List.take_succ_cons, List.take_zero]
        refine Prod.ext (by simp) ?_
        show true = decide (limit ≤ acc.length + (v :: vs.filter (fun v => v ≠ [])).length)
        rw [decide_eq_true (by simp only [List.length_cons]; omega)]
      · rw [if_neg hl]
        rw [hlen] at hl
        have h2 : (acc ++ [v]).length < limit := by rw [hlen]; omega
        rw [ih limit (acc ++ [v]) h2, hlen]
        have h3 : limit - acc.length = (limit - (acc.length + 1)) + 1 := by omega
        rw [h3, List.take_succ_cons]
        refine Prod.ext (by simp) ?_
        show decide (limit ≤ acc.length + 1 + (vs.filter (fun v => v ≠ [])).length) =
          decide (limit ≤ acc.length + (v :: vs.filter (fun v => v ≠ [])).length)
        rw [decide_eq_decide]
        simp only [List.length_cons]
        omega

theorem epvLoop_spec (pages : List PPage) : ∀ (limit : Nat) (acc : List (List Char)),
    acc.length < limit →
    epvLoop pages limit acc = acc ++ (pageStream pages).take (limit - acc.length) := by
  induction pages with
  | nil => intro limit acc h; simp [epvLoop, pageStream]
  | cons pg rest ih =>
    intro limit acc h
    rw [epvLoop]
    rw [procItems_spec pg.items limit acc h]
    by_cases hfull : limit ≤ acc.length + (pg.items.filter (fun v => v ≠ [])).length
    · rw [decide_eq_true hfull]
      dsimp only
      rw [if_pos rfl]
      rw [pageStream]
      rw [List.take_append_of_le_length (by omega)]
    · rw [decide_eq_false hfull]
      dsimp only
      rw [if_neg Bool.false_ne_true]
      have htake : (pg.items.filter (fun v => v ≠ [])).take (limit - acc.length) =
          pg.items.filter (fun v => v ≠ []) :=
        List.take_of_length_le (by omega)
      rw [htake]
      have hlen2 : (acc ++ pg.items.filter (fun v => v ≠ [])).length < limit := by
        simp only [List.length_append]; omega
      by_cases hnext : pg.next = false
      · rw [if_pos (Or.inl hnext)]
        rw [pageStream, hnext]
        simp only [Bool.false_eq_true, if_false, List.append_nil]
        rw [List.take_of_length_le (by simp only [List.length_append] at hlen2 ⊢; omega)]
      · rw [if_neg (by
          rintro (hh | hh)
          · exact hnext hh
          · omega)]
        rw [ih limit _ hlen2]
        have hnt : pg.next = true := by revert hnext; cases pg.next <;> simp
        rw [pageStream, hnt, if_pos rfl]
        rw [List.take_append_eq_append_take, htake]
        simp only [List.append_assoc, List.length_append] at hlen2 ⊢
        rw [Nat.sub_add_eq]

/-- C7 (amended): for every positive limit and every page sequence,
`expand_playlist_video_ids` returns exactly the first `limit` ids of the
page-order stream (so at most `limit` of them, stopping once the limit is
reached or pages are exhausted).  The claim fails as stated for `limit = 0`,
where one id is still taken: see the counterexample. -/
theorem expand_playlist_take_limit (pages : List PPage) (limit : Nat) (h : 1 ≤ limit) :
    expand_playlist_video_ids (some pages) limit = (pageStream pages).take limit ∧
    (expand_playlist_video_ids (some pages) limit).length ≤ limit := by
  have h0 : ([] : List (List Char)).length < limit := by simpa using h
  have h1 : expand_playlist_video_ids (some pages) limit = (pageStream pages).take limit := by
    rw [expand_playlist_video_ids, epvLoop_spec pages limit [] h0]
    simp
  refine ⟨h1, ?_⟩
  rw [h1]
  exact List.length_take_le limit (pageStream pages)

-- Witness for C7 at a concrete page list and limit 1.
theorem expand_playlist_take_limit_witness :
    expand_playlist_video_ids (some [⟨[['a'], ['b']], false⟩]) 1 =
      (pageStream [⟨[['a'], ['b']], false⟩]).take 1 ∧
    (expand_playlist_video_ids (some [⟨[['a'], ['b']], false⟩]) 1).length ≤ 1 :=
  expand_playlist_take_limit [⟨[['a'], ['b']], false⟩] 1 (by decide)

/-- Counterexample to C7 as stated: with `limit = 0` the loop still appends
the first id before checking the limit, so the result is not bounded by the
limit. -/
theorem expand_playlist_limit_cex :
    expand_playlist_video_ids (some [⟨[['a']], false⟩]) 0 = [['a']] ∧
    ¬ ((expand_playlist_video_ids (some [⟨[['a']], false⟩]) 0).length ≤ 0) := by decide

/-! ## Lemmas: filename uniquification -/

theorem dlookup_dset (m : List (List Char × Nat)) (b x : List Char) (n : Nat) :
    dlookup (dset m b n) x = if b = x then some n else dlookup m x := rfl

theorem specNames_congr (l : List (List Char)) : ∀ f g : List Char → Nat,
    (∀ x, f x = g x) → specNames f l = specNames g l := by
  induction l with
  | nil => intro f g h; rfl
  | cons b bs ih =>
    intro f g h
    rw [specNames, specNames, h b]
    congr 1
    exact ih _ _ (fun x => by by_cases hx : x = b <;> simp [hx, h x])

theorem nameRun_spec (bases : List (List Char)) : ∀ used : List (List Char × Nat),
    (∀ b n, dlookup used b = some n → 1 ≤ n) →
    nameRun bases used = specNames (fun x => (dlookup used x).getD 0) bases := by
  induction bases with
  | nil => intro used hinv; rfl
  | cons b bs ih =>
    intro used hinv
    rw [nameRun, specNames]
    rcases hlk : dlookup used b with _ | n
    · rw [unique_name, hlk]
      dsimp only
      simp only [hlk, Option.getD_none, Nat.zero_add, if_pos rfl]
      congr 1
      rw [ih (dset used b 1) (by
        intro b2 n2 h2
        rw [dlookup_dset] at h2
        by_cases hb : b = b2
        · rw [if_pos hb] at h2; cases h2; exact Nat.le_refl 1
        · rw [if_neg hb] at h2; exact hinv b2 n2 h2)]
      refine specNames_congr _ _ _ (fun x => ?_)
      rw [dlookup_dset]
      by_cases hx : x = b
      · rw [hx, if_pos rfl, if_pos rfl]; rfl
      · rw [if_neg (fun hbx => hx hbx.symm), if_neg hx]
    · have hn : 1 ≤ n := hinv b n hlk
      rw [unique_name, hlk]
      dsimp only
      simp only [hlk, Option.getD_some]
      rw [if_neg (by omega)]
      congr 1
      rw [ih (dset used b (n + 1)) (by
        intro b2 n2 h2
        rw [dlookup_dset] at h2
        by_cases hb : b = b2
        · rw [if_pos hb] at h2; cases h2; omega
        · rw [if_neg hb] at h2; exact hinv b2 n2 h2)]
      refine specNames_congr _ _ _ (fun x => ?_)
      rw [dlookup_dset]
      by_cases hx : x = b
      · rw [hx, if_pos rfl, if_pos rfl]; rfl
      · rw [if_neg (fun hbx => hx hbx.symm), if_neg hx]

/-- C4 (amended): within one archive build the k-th use of a base name b
yields b unsuffixed for k = 1 and `b (k)` for k ≥ 2 (so equal titles like
Intro, Intro, Intro give Intro, Intro (2), Intro (3)); however names are
de-duplicated only per base, not against every name already used, so entry
filenames are not always pairwise distinct: see the counterexample. -/
theorem unique_name_counter_spec :
    (∀ bases : List (List Char), nameRun bases [] = specNames (fun _ => 0) bases) ∧
    nameRun ["Intro".toList, "Intro".toList, "Intro".toList] [] =
      ["Intro".toList, "Intro (2)".toList, "Intro (3)".toList] := by
  constructor
  · intro bases
    rw [nameRun_spec bases [] (by intro b n h; simp [dlookup] at h)]
    exact specNames_congr _ _ _ (fun x => by simp [dlookup])
  · decide

/-- Counterexample to C4 as stated: a title that itself looks like a suffixed
name collides with a generated name — the sanitized bases Intro, Intro (2),
Intro yield the names Intro, Intro (2), Intro (2), which are not pairwise
distinct (and neither are the `.txt` filenames built from them). -/
theorem unique_name_collision_cex :
    nameRun (["Intro".toList, "Intro (2)".toList, "Intro".toList].map sanitize_filename) [] =
      ["Intro".toList, "Intro (2)".toList, "Intro (2)".toList] ∧
    ¬ (nameRun (["Intro".toList, "Intro (2)".toList, "Intro".toList].map sanitize_filename)
        []).Nodup := by decide

/-! ## Lemmas: float arithmetic of the normalizer -/

theorem floor_toRat_div (x : PyFloat) :
    ⌊x.toRat / 60⌋ = x.num / ((60 * x.den : ℕ) : ℤ) := by
  by_cases hd : x.den = 0
  · rw [PyFloat.toRat, hd]
    simp
  · have hv : x.toRat / 60 = (x.num : ℚ) / ((60 * x.den : ℕ) : ℚ) := by
      rw [PyFloat.toRat, div_div]
      congr 1
      push_cast
      ring
    rw [hv, Rat.floor_intCast_div_natCast]

theorem pfFloorDiv_toRat (x : PyFloat) :
    pfInt (pfFloorDivNat x 60) = ⌊x.toRat / 60⌋ := by
  rw [pfFloorDivNat, pfInt]
  dsimp only
  simp only [Nat.cast_one, Int.tdiv_one]
  rw [Int.fdiv_eq_ediv _ (Int.natCast_nonneg _), floor_toRat_div]

theorem pfMod_toRat (x : PyFloat) :
    pfInt (pfModNat x 60) = ⌊x.toRat - 60 * (⌊x.toRat / 60⌋ : ℚ)⌋ := by
  by_cases hd : x.den = 0
  · rw [pfModNat, pfInt]
    dsimp only
    rw [PyFloat.toRat, hd]
    simp
  · rw [pfModNat, pfInt]
    dsimp only
    rw [Int.fdiv_eq_ediv _ (Int.natCast_nonneg _)]
    rw [← Int.emod_def]
    have hne : ((60 * x.den : ℕ) : ℤ) ≠ 0 := by
      simp only [ne_eq, Nat.cast_eq_zero, Nat.mul_eq_zero]
      push_neg
      exact ⟨by norm_num, hd⟩
    have hN : 0 ≤ x.num % ((60 * x.den : ℕ) : ℤ) := Int.emod_nonneg _ hne
    rw [Int.tdiv_eq_ediv hN (Int.natCast_nonneg _)]
    rw [floor_toRat_div]
    have hdQ : ((x.den : ℕ) : ℚ) ≠ 0 := Nat.cast_ne_zero.mpr hd
    have hval : x.toRat - 60 * ((x.num / ((60 * x.den : ℕ) : ℤ) : ℤ) : ℚ) =
        ((x.num % ((60 * x.den : ℕ) : ℤ) : ℤ) : ℚ) / ((x.den : ℕ) : ℚ) := by
      rw [PyFloat.toRat, Int.emod_def]
      field_simp
      ring
    rw [hval, Rat.floor_intCast_div_natCast]

/-- C2: `normalize_transcript` trims each segment's text, drops empties,
keeps order, joins with single newlines and no trailing newline, and when
timestamps are requested prefixes `[MM:SS]` with `minutes = floor(start/60)`
and `seconds = floor(start mod 60)` (`start` treated as 0 when absent), both
zero-padded to two digits and minutes unclamped — stated as equality with the
spec-modelled normalizer, plus the spec's own 62.5-second example. -/
theorem normalize_transcript_spec :
    (∀ (segments : List Segment) (ts : Bool),
      normalize_transcript segments ts = normalizeSpec segments ts) ∧
    normalize_transcript
      [⟨some "Hello world".toList, some ⟨1, 1⟩⟩, ⟨some "Test".toList, some ⟨125, 2⟩⟩] true =
      "[00:01] Hello world\n[01:02] Test".toList := by
  constructor
  · intro segments ts
    rw [normalize_transcript, normalizeSpec]
    congr 1
    induction segments with
    | nil => rfl
    | cons seg rest ih =>
      rw [normLines, List.filterMap_cons]
      by_cases htext : pyStrip (seg.text.getD []) = []
      · rw [if_pos htext]
        simp [htext, ih]
      · rw [if_neg htext]
        cases ts
        · simp [htext, ih]
        · simp [htext, ih, tsLine, pfFloorDiv_toRat, pfMod_toRat]
  · decide

/-! ## Lemmas: the pattern cascade on shaped URLs -/

theorem idChar_ne (c d : Char) (h : isIdChar c = true) (hd : isIdChar d = false) : ¬ c = d := by
  intro he
  subst he
  rw [h] at hd
  cases hd

theorem idChar_not_space (c : Char) (h : isIdChar c = true) : isPySpace c = false := by
  cases hsp : isPySpace c
  · rfl
  · exfalso
    rw [isPySpace] at hsp
    simp only [Bool.or_eq_true, decide_eq_true_eq] at hsp
    rcases hsp with ((((h1 | h1) | h1) | h1) | h1) | h1 <;> subst h1 <;>
      exact absurd h (by decide)

theorem idTake_full : ∀ l : List Char, l.all isIdChar = true → idTake l.length l = some l := by
  intro l
  induction l with
  | nil => intro h; rfl
  | cons c cs ih =>
    intro h
    simp only [List.all_cons, Bool.and_eq_true] at h
    rw [List.length_cons, idTake, if_pos h.1, ih h.2]

theorem reSearch_cons_step (f : List Char → Option (List Char)) (c : Char) (cs : List Char)
    (h : f (c :: cs) = none) : reSearch f (c :: cs) = reSearch f cs := by
  rw [reSearch, h]

theorem reSearch_none_of_all (f : List Char → Option (List Char))
    (hf : ∀ l, l.all isIdChar = true → f l = none) :
    ∀ l, l.all isIdChar = true → reSearch f l = none := by
  intro l
  induction l with
  | nil => intro h; rw [reSearch]; exact hf [] h
  | cons c cs ih =>
    intro h
    rw [reSearch, hf _ h]
    exact ih (by simp only [List.all_cons, Bool.and_eq_true] at h; exact h.2)

theorem dropLit_eq_append : ∀ lit s r : List Char, dropLit lit s = some r → s = lit ++ r := by
  intro lit
  induction lit with
  | nil => intro s r h; rw [dropLit] at h; cases h; rfl
  | cons p ps ih =>
    intro s r h
    match s with
    | [] => rw [dropLit] at h; cases h
    | c :: cs =>
      rw [dropLit] at h
      by_cases hc : c = p
      · rw [if_pos hc] at h
        rw [hc, List.cons_append, ih cs r h]
      · rw [if_neg hc] at h; cases h

theorem tryLit_none_of_id (lit : List Char) (c : Char) (hc : c ∈ lit)
    (hbad : isIdChar c = false) :
    ∀ l, l.all isIdChar = true → tryLit lit l = none := by
  intro l hl
  rw [tryLit]
  rcases hd : dropLit lit l with _ | r
  · rfl
  · exfalso
    have hs := dropLit_eq_append lit l r hd
    rw [hs, List.all_append, Bool.and_eq_true, List.all_eq_true] at hl
    have := hl.1 c hc
    rw [hbad] at this
    cases this

theorem reSearch_beLit_id (l : List Char) (h : l.all isIdChar = true) :
    reSearch (tryLit beLit) l = none :=
  reSearch_none_of_all _ (tryLit_none_of_id beLit '/' (by decide) (by decide)) l h

theorem reSearch_embedLit_id (l : List Char) (h : l.all isIdChar = true) :
    reSearch (tryLit embedLit) l = none :=
  reSearch_none_of_all _ (tryLit_none_of_id embedLit '/' (by decide) (by decide)) l h

theorem exists_eleven (t : List Char) (h : t.length = 11) :
    ∃ c0 c1 c2 c3 c4 c5 c6 c7 c8 c9 c10,
      t = [c0, c1, c2, c3, c4, c5, c6, c7, c8, c9, c10] := by
  obtain ⟨c0, t, rfl⟩ := @List.exists_of_length_succ Char 10 t (by omega)
  have h0 : t.length = 10 := by simpa using h
  obtain ⟨c1, t, rfl⟩ := @List.exists_of_length_succ Char 9 t (by omega)
  have h1 : t.length = 9 := by simpa using h0
  obtain ⟨c2, t, rfl⟩ := @List.exists_of_length_succ Char 8 t (by omega)
  have h2 : t.length = 8 := by simpa using h1
  obtain ⟨c3, t, rfl⟩ := @List.exists_of_length_succ Char 7 t (by omega)
  have h3 : t.length = 7 := by simpa using h2
  obtain ⟨c4, t, rfl⟩ := @List.exists_of_length_succ Char 6 t (by omega)
  have h4 : t.length = 6 := by simpa using h3
  obtain ⟨c5, t, rfl⟩ := @List.exists_of_length_succ Char 5 t (by omega)
  have h5 : t.length = 5 := by simpa using h4
  obtain ⟨c6, t, rfl⟩ := @List.exists_of_length_succ Char 4 t (by omega)
  have h6 : t.length = 4 := by simpa using h5
  obtain ⟨c7, t, rfl⟩ := @List.exists_of_length_succ Char 3 t (by omega)
  have h7 : t.length = 3 := by simpa using h6
  obtain ⟨c8, t, rfl⟩ := @List.exists_of_length_succ Char 2 t (by omega)
  have h8 : t.length = 2 := by simpa using h7
  obtain ⟨c9, t, rfl⟩ := @List.exists_of_length_succ Char 1 t (by omega)
  have h9 : t.length = 1 := by simpa using h8
  obtain ⟨c10, t, rfl⟩ := @List.exists_of_length_succ Char 0 t (by omega)
  have h10 : t.length = 0 := by simpa using h9
  rcases t with _ | ⟨c11, t⟩
  · exact ⟨c0, c1, c2, c3, c4, c5, c6, c7, c8, c9, c10, rfl⟩
  · simp at h10

theorem pyStrip_pre_id (pre : List Char) (c : Char) (r t : List Char)
    (hpre : pre = c :: r) (hc : isPySpace c = false) (ht : t ≠ [])
    (hta : t.all isIdChar = true) : pyStrip (pre ++ t) = pre ++ t := by
  have h1 : (pre ++ t).dropWhile isPySpace = pre ++ t := by
    rw [hpre, List.cons_append, List.dropWhile_cons, if_neg (by simp [hc])]
  have h2 : (pre ++ t).reverse.dropWhile isPySpace = (pre ++ t).reverse := by
    rcases hrev : t.reverse with _ | ⟨d, t2⟩
    · exact absurd (by simpa using congrArg List.reverse hrev) ht
    · have hd : d ∈ t := by
        have : d ∈ t.reverse := by rw [hrev]; exact List.mem_cons_self _ _
        simpa using this
      have hdid : isIdChar d = true := by
        rw [List.all_eq_true] at hta
        exact hta d hd
      rw [List.reverse_append, hrev, List.cons_append, List.dropWhile_cons,
        if_neg (by simp [idChar_not_space d hdid])]
  rw [pyStrip, h1, h2, List.reverse_reverse]

theorem idTake_eleven (c0 c1 c2 c3 c4 c5 c6 c7 c8 c9 c10 : Char)
    (h0 : isIdChar c0 = true)
    (h1 : isIdChar c1 = true)
    (h2 : isIdChar c2 = true)
    (h3 : isIdChar c3 = true)
    (h4 : isIdChar c4 = true)
    (h5 : isIdChar c5 = true)
    (h6 : isIdChar c6 = true)
    (h7 : isIdChar c7 = true)
    (h8 : isIdChar c8 = true)
    (h9 : isIdChar c9 = true)
    (h10 : isIdChar c10 = true) :
    idTake 11 [c0, c1, c2, c3, c4, c5, c6, c7, c8, c9, c10] = some [c0, c1, c2, c3, c4, c5, c6, c7, c8, c9, c10] := by
  have := idTake_full [c0, c1, c2, c3, c4, c5, c6, c7, c8, c9, c10] (by simp [h0, h1, h2, h3, h4, h5, h6, h7, h8, h9, h10])
  simpa using this

theorem tryVEq_search_none_short (c0 c1 c2 c3 c4 c5 c6 c7 c8 c9 c10 : Char)
    (h0 : isIdChar c0 = true)
    (h1 : isIdChar c1 = true)
    (h2 : isIdChar c2 = true)
    (h3 : isIdChar c3 = true)
    (h4 : isIdChar c4 = true)
    (h5 : isIdChar c5 = true)
    (h6 : isIdChar c6 = true)
    (h7 : isIdChar c7 = true)
    (h8 : isIdChar c8 = true)
    (h9 : isIdChar c9 = true)
    (h10 : isIdChar c10 = true) :
    reSearch tryVEq (shortPre ++ [c0, c1, c2, c3, c4, c5, c6, c7, c8, c9, c10]) = none := by
  have n0 : ¬ c0 = '=' := idChar_ne c0 '=' h0 (by decide)
  have n1 : ¬ c1 = '=' := idChar_ne c1 '=' h1 (by decide)
  have n2 : ¬ c2 = '=' := idChar_ne c2 '=' h2 (by decide)
  have n3 : ¬ c3 = '=' := idChar_ne c3 '=' h3 (by decide)
  have n4 : ¬ c4 = '=' := idChar_ne c4 '=' h4 (by decide)
  have n5 : ¬ c5 = '=' := idChar_ne c5 '=' h5 (by decide)
  have n6 : ¬ c6 = '=' := idChar_ne c6 '=' h6 (by decide)
  have n7 : ¬ c7 = '=' := idChar_ne c7 '=' h7 (by decide)
  have n8 : ¬ c8 = '=' := idChar_ne c8 '=' h8 (by decide)
  have n9 : ¬ c9 = '=' := idChar_ne c9 '=' h9 (by decide)
  have n10 : ¬ c10 = '=' := idChar_ne c10 '=' h10 (by decide)
  simp [shortPre, reSearch, tryVEq, n0, n1, n2, n3, n4, n5, n6, n7, n8, n9, n10]

theorem pvRules_short (c0 c1 c2 c3 c4 c5 c6 c7 c8 c9 c10 : Char)
    (h0 : isIdChar c0 = true)
    (h1 : isIdChar c1 = true)
    (h2 : isIdChar c2 = true)
    (h3 : isIdChar c3 = true)
    (h4 : isIdChar c4 = true)
    (h5 : isIdChar c5 = true)
    (h6 : isIdChar c6 = true)
    (h7 : isIdChar c7 = true)
    (h8 : isIdChar c8 = true)
    (h9 : isIdChar c9 = true)
    (h10 : isIdChar c10 = true) :
    pvRules (shortPre ++ [c0, c1, c2, c3, c4, c5, c6, c7, c8, c9, c10]) = some [c0, c1, c2, c3, c4, c5, c6, c7, c8, c9, c10] := by
  have hidl := idTake_eleven c0 c1 c2 c3 c4 c5 c6 c7 c8 c9 c10 h0 h1 h2 h3 h4 h5 h6 h7 h8 h9 h10
  have hveq := tryVEq_search_none_short c0 c1 c2 c3 c4 c5 c6 c7 c8 c9 c10 h0 h1 h2 h3 h4 h5 h6 h7 h8 h9 h10
  have hbe : reSearch (tryLit beLit) (shortPre ++ [c0, c1, c2, c3, c4, c5, c6, c7, c8, c9, c10]) = some [c0, c1, c2, c3, c4, c5, c6, c7, c8, c9, c10] := by
    simp [shortPre, reSearch, tryLit, dropLit, beLit, hidl]
  rw [pvRules, hveq, hbe]

theorem pvRules_watch (c0 c1 c2 c3 c4 c5 c6 c7 c8 c9 c10 : Char)
    (h0 : isIdChar c0 = true)
    (h1 : isIdChar c1 = true)
    (h2 : isIdChar c2 = true)
    (h3 : isIdChar c3 = true)
    (h4 : isIdChar c4 = true)
    (h5 : isIdChar c5 = true)
    (h6 : isIdChar c6 = true)
    (h7 : isIdChar c7 = true)
    (h8 : isIdChar c8 = true)
    (h9 : isIdChar c9 = true)
    (h10 : isIdChar c10 = true) :
    pvRules (watchPre ++ [c0, c1, c2, c3, c4, c5, c6, c7, c8, c9, c10]) = some [c0, c1, c2, c3, c4, c5, c6, c7, c8, c9, c10] := by
  have hidl := idTake_eleven c0 c1 c2 c3 c4 c5 c6 c7 c8 c9 c10 h0 h1 h2 h3 h4 h5 h6 h7 h8 h9 h10
  have hveq : reSearch tryVEq (watchPre ++ [c0, c1, c2, c3, c4, c5, c6, c7, c8, c9, c10]) = some [c0, c1, c2, c3, c4, c5, c6, c7, c8, c9, c10] := by
    simp [watchPre, reSearch, tryVEq, hidl]
  rw [pvRules, hveq]

theorem tryVEq_search_none_embed (c0 c1 c2 c3 c4 c5 c6 c7 c8 c9 c10 : Char)
    (h0 : isIdChar c0 = true)
    (h1 : isIdChar c1 = true)
    (h2 : isIdChar c2 = true)
    (h3 : isIdChar c3 = true)
    (h4 : isIdChar c4 = true)
    (h5 : isIdChar c5 = true)
    (h6 : isIdChar c6 = true)
    (h7 : isIdChar c7 = true)
    (h8 : isIdChar c8 = true)
    (h9 : isIdChar c9 = true)
    (h10 : isIdChar c10 = true) :
    reSearch tryVEq (embedPre ++ [c0, c1, c2, c3, c4, c5, c6, c7, c8, c9, c10]) = none := by
  have n0 : ¬ c0 = '=' := idChar_ne c0 '=' h0 (by decide)
  have n1 : ¬ c1 = '=' := idChar_ne c1 '=' h1 (by decide)
  have n2 : ¬ c2 = '=' := idChar_ne c2 '=' h2 (by decide)
  have n3 : ¬ c3 = '=' := idChar_ne c3 '=' h3 (by decide)
  have n4 : ¬ c4 = '=' := idChar_ne c4 '=' h4 (by decide)
  have n5 : ¬ c5 = '=' := idChar_ne c5 '=' h5 (by decide)
  have n6 : ¬ c6 = '=' := idChar_ne c6 '=' h6 (by decide)
  have n7 : ¬ c7 = '=' := idChar_ne c7 '=' h7 (by decide)
  have n8 : ¬ c8 = '=' := idChar_ne c8 '=' h8 (by decide)
  have n9 : ¬ c9 = '=' := idChar_ne c9 '=' h9 (by decide)
  have n10 : ¬ c10 = '=' := idChar_ne c10 '=' h10 (by decide)
  simp [embedPre, reSearch, tryVEq, n0, n1, n2, n3, n4, n5, n6, n7, n8, n9, n10]

theorem pvRules_embed (c0 c1 c2 c3 c4 c5 c6 c7 c8 c9 c10 : Char)
    (h0 : isIdChar c0 = true)
    (h1 : isIdChar c1 = true)
    (h2 : isIdChar c2 = true)
    (h3 : isIdChar c3 = true)
    (h4 : isIdChar c4 = true)
    (h5 : isIdChar c5 = true)
    (h6 : isIdChar c6 = true)
    (h7 : isIdChar c7 = true)
    (h8 : isIdChar c8 = true)
    (h9 : isIdChar c9 = true)
    (h10 : isIdChar c10 = true) :
    pvRules (embedPre ++ [c0, c1, c2, c3, c4, c5, c6, c7, c8, c9, c10]) = some [c0, c1, c2, c3, c4, c5, c6, c7, c8, c9, c10] := by
  have hidl := idTake_eleven c0 c1 c2 c3 c4 c5 c6 c7 c8 c9 c10 h0 h1 h2 h3 h4 h5 h6 h7 h8 h9 h10
  have hveq := tryVEq_search_none_embed c0 c1 c2 c3 c4 c5 c6 c7 c8 c9 c10 h0 h1 h2 h3 h4 h5 h6 h7 h8 h9 h10
  have hbe : reSearch (tryLit beLit) (embedPre ++ [c0, c1, c2, c3, c4, c5, c6, c7, c8, c9, c10]) = none := by
    simp only [embedPre, List.cons_append, List.nil_append]
    iterate 30 rw [reSearch_cons_step _ _ _ (by simp [tryLit, dropLit, beLit])]
    exact reSearch_beLit_id _ (by simp [h0, h1, h2, h3, h4, h5, h6, h7, h8, h9, h10])
  have hemb : reSearch (tryLit embedLit) (embedPre ++ [c0, c1, c2, c3, c4, c5, c6, c7, c8, c9, c10]) = some [c0, c1, c2, c3, c4, c5, c6, c7, c8, c9, c10] := by
    simp [embedPre, reSearch, tryLit, dropLit, embedLit, hidl]
  rw [pvRules, hveq, hbe, hemb]

theorem tryVEq_search_none_shorts (c0 c1 c2 c3 c4 c5 c6 c7 c8 c9 c10 : Char)
    (h0 : isIdChar c0 = true)
    (h1 : isIdChar c1 = true)
    (h2 : isIdChar c2 = true)
    (h3 : isIdChar c3 = true)
    (h4 : isIdChar c4 = true)
    (h5 : isIdChar c5 = true)
    (h6 : isIdChar c6 = true)
    (h7 : isIdChar c7 = true)
    (h8 : isIdChar c8 = true)
    (h9 : isIdChar c9 = true)
    (h10 : isIdChar c10 = true) :
    reSearch tryVEq (shortsPre ++ [c0, c1, c2, c3, c4, c5, c6, c7, c8, c9, c10]) = none := by
  have n0 : ¬ c0 = '=' := idChar_ne c0 '=' h0 (by decide)
  have n1 : ¬ c1 = '=' := idChar_ne c1 '=' h1 (by decide)
  have n2 : ¬ c2 = '=' := idChar_ne c2 '=' h2 (by decide)
  have n3 : ¬ c3 = '=' := idChar_ne c3 '=' h3 (by decide)
  have n4 : ¬ c4 = '=' := idChar_ne c4 '=' h4 (by decide)
  have n5 : ¬ c5 = '=' := idChar_ne c5 '=' h5 (by decide)
  have n6 : ¬ c6 = '=' := idChar_ne c6 '=' h6 (by decide)
  have n7 : ¬ c7 = '=' := idChar_ne c7 '=' h7 (by decide)
  have n8 : ¬ c8 = '=' := idChar_ne c8 '=' h8 (by decide)
  have n9 : ¬ c9 = '=' := idChar_ne c9 '=' h9 (by decide)
  have n10 : ¬ c10 = '=' := idChar_ne c10 '=' h10 (by decide)
  simp [shortsPre, reSearch, tryVEq, n0, n1, n2, n3, n4, n5, n6, n7, n8, n9, n10]

theorem pvRules_shorts (c0 c1 c2 c3 c4 c5 c6 c7 c8 c9 c10 : Char)
    (h0 : isIdChar c0 = true)
    (h1 : isIdChar c1 = true)
    (h2 : isIdChar c2 = true)
    (h3 : isIdChar c3 = true)
    (h4 : isIdChar c4 = true)
    (h5 : isIdChar c5 = true)
    (h6 : isIdChar c6 = true)
    (h7 : isIdChar c7 = true)
    (h8 : isIdChar c8 = true)
    (h9 : isIdChar c9 = true)
    (h10 : isIdChar c10 = true) :
    pvRules (shortsPre ++ [c0, c1, c2, c3, c4, c5, c6, c7, c8, c9, c10]) = some [c0, c1, c2, c3, c4, c5, c6, c7, c8, c9, c10] := by
  have hidl := idTake_eleven c0 c1 c2 c3 c4 c5 c6 c7 c8 c9 c10 h0 h1 h2 h3 h4 h5 h6 h7 h8 h9 h10
  have hveq := tryVEq_search_none_shorts c0 c1 c2 c3 c4 c5 c6 c7 c8 c9 c10 h0 h1 h2 h3 h4 h5 h6 h7 h8 h9 h10
  have hbe : reSearch (tryLit beLit) (shortsPre ++ [c0, c1, c2, c3, c4, c5, c6, c7, c8, c9, c10]) = none := by
    simp only [shortsPre, List.cons_append, List.nil_append]
    iterate 31 rw [reSearch_cons_step _ _ _ (by simp [tryLit, dropLit, beLit])]
    exact reSearch_beLit_id _ (by simp [h0, h1, h2, h3, h4, h5, h6, h7, h8, h9, h10])
  have hemb : reSearch (tryLit embedLit) (shortsPre ++ [c0, c1, c2, c3, c4, c5, c6, c7, c8, c9, c10]) = none := by
    simp only [shortsPre, List.cons_append, List.nil_append]
    iterate 31 rw [reSearch_cons_step _ _ _ (by simp [tryLit, dropLit, embedLit])]
    exact reSearch_embedLit_id _ (by simp [h0, h1, h2, h3, h4, h5, h6, h7, h8, h9, h10])
  have hsh : reSearch (tryLit shortsLit) (shortsPre ++ [c0, c1, c2, c3, c4, c5, c6, c7, c8, c9, c10]) = some [c0, c1, c2, c3, c4, c5, c6, c7, c8, c9, c10] := by
    simp [shortsPre, reSearch, tryLit, dropLit, shortsLit, hidl]
  rw [pvRules, hveq, hbe, hemb, hsh]

/-- C3: `parse_video_id` tries the extraction rules in the fixed order `v=`,
`be/`, `embed/`, `shorts/`, whole-string token, and returns the first match's
capture; consequently every valid 11-character token embedded in a
`watch?v=`, `youtu.be/`, `/embed/` or `/shorts/` URL shape is returned
exactly. -/
theorem parse_video_id_url_shapes (t : List Char)
    (h : t.length = 11 ∧ t.all isIdChar = true) :
    parse_video_id (.str (watchPre ++ t)) = .ok t ∧
    parse_video_id (.str (shortPre ++ t)) = .ok t ∧
    parse_video_id (.str (embedPre ++ t)) = .ok t ∧
    parse_video_id (.str (shortsPre ++ t)) = .ok t := by
  obtain ⟨hlen, hall⟩ := h
  obtain ⟨c0, c1, c2, c3, c4, c5, c6, c7, c8, c9, c10, rfl⟩ := exists_eleven t hlen
  simp only [List.all_cons, List.all_nil, Bool.and_eq_true, and_true] at hall
  obtain ⟨H0, H1, H2, H3, H4, H5, H6, H7, H8, H9, H10⟩ := hall
  have hta : ([c0, c1, c2, c3, c4, c5, c6, c7, c8, c9, c10] : List Char).all isIdChar = true := by
    simp [H0, H1, H2, H3, H4, H5, H6, H7, H8, H9, H10]
  have htne : ([c0, c1, c2, c3, c4, c5, c6, c7, c8, c9, c10] : List Char) ≠ [] := by simp
  refine ⟨?_, ?_, ?_, ?_⟩
  · have hps := pyStrip_pre_id watchPre 'h' _ _ rfl (by decide) htne hta
    have hpv := pvRules_watch c0 c1 c2 c3 c4 c5 c6 c7 c8 c9 c10 H0 H1 H2 H3 H4 H5 H6 H7 H8 H9 H10
    simp only [parse_video_id, hps, hpv]
    rw [if_neg (by simp [watchPre])]
  · have hps := pyStrip_pre_id shortPre 'h' _ _ rfl (by decide) htne hta
    have hpv := pvRules_short c0 c1 c2 c3 c4 c5 c6 c7 c8 c9 c10 H0 H1 H2 H3 H4 H5 H6 H7 H8 H9 H10
    simp only [parse_video_id, hps, hpv]
    rw [if_neg (by simp [shortPre])]
  · have hps := pyStrip_pre_id embedPre 'h' _ _ rfl (by decide) htne hta
    have hpv := pvRules_embed c0 c1 c2 c3 c4 c5 c6 c7 c8 c9 c10 H0 H1 H2 H3 H4 H5 H6 H7 H8 H9 H10
    simp only [parse_video_id, hps, hpv]
    rw [if_neg (by simp [embedPre])]
  · have hps := pyStrip_pre_id shortsPre 'h' _ _ rfl (by decide) htne hta
    have hpv := pvRules_shorts c0 c1 c2 c3 c4 c5 c6 c7 c8 c9 c10 H0 H1 H2 H3 H4 H5 H6 H7 H8 H9 H10
    simp only [parse_video_id, hps, hpv]
    rw [if_neg (by simp [shortsPre])]

-- Witness for C3 at a concrete valid token.
theorem parse_video_id_url_shapes_witness :
    parse_video_id (.str (watchPre ++ "dQw4w9WgXcQ".toList)) = .ok "dQw4w9WgXcQ".toList ∧
    parse_video_id (.str (shortPre ++ "dQw4w9WgXcQ".toList)) = .ok "dQw4w9WgXcQ".toList ∧
    parse_video_id (.str (embedPre ++ "dQw4w9WgXcQ".toList)) = .ok "dQw4w9WgXcQ".toList ∧
    parse_video_id (.str (shortsPre ++ "dQw4w9WgXcQ".toList)) = .ok "dQw4w9WgXcQ".toList :=
  parse_video_id_url_shapes "dQw4w9WgXcQ".toList ⟨by decide, by decide⟩

/-- C8 (amended): `parse_video_id` fails exactly when the input is empty
(after stripping), non-string, or matches no extraction rule; the error
message embeds the offending (stripped) input only in the no-rule-match case
(`"Could not extract a valid YouTube video ID from: " + input`), while empty
and non-string failures carry the fixed message `"URL must be a non-empty
string"`, which does not name the input (see the counterexample); in
particular `parse_video_id("https://example.com")` fails. -/
theorem parse_video_id_error_conditions :
    (∀ s : List Char,
      isErr (parse_video_id (.str s)) =
        (decide (pyStrip s = []) || (pvRules (pyStrip s)).isNone)) ∧
    (parse_video_id PyVal.pyNone = .error emptyMsg ∧
      parse_video_id PyVal.pyOther = .error emptyMsg) ∧
    (∀ s : List Char, pyStrip s ≠ [] → pvRules (pyStrip s) = none →
      parse_video_id (.str s) = .error (noIdMsgStem ++ pyStrip s)) ∧
    parse_video_id (.str "https://example.com".toList) =
      .error (noIdMsgStem ++ "https://example.com".toList) := by
  refine ⟨?_, ⟨rfl, rfl⟩, ?_, by decide⟩
  · intro s
    rw [parse_video_id]
    by_cases he : pyStrip s = []
    · rw [if_pos he, he]
      simp [isErr]
    · rw [if_neg he]
      rcases hr : pvRules (pyStrip s) with _ | r
      · simp [isErr, he, hr]
      · simp [isErr, he, hr]
  · intro s he hr
    rw [parse_video_id, if_neg he, hr]

-- Witness for C8 at the spec's own example URL.
theorem parse_video_id_error_conditions_witness :
    parse_video_id (.str "https://example.com".toList) =
      .error (noIdMsgStem ++ pyStrip "https://example.com".toList) :=
  parse_video_id_error_conditions.2.2.1 "https://example.com".toList (by decide) (by decide)

/-- Counterexample to C8 as stated: the whitespace-only input (a single tab)
fails with the fixed message `"URL must be a non-empty string"`, which does
not contain the offending input — so not every failure names the input. -/
theorem parse_video_id_names_input_cex :
    parse_video_id (.str ['\t']) = .error emptyMsg ∧
    ¬ List.IsInfix ['\t'] emptyMsg := by decide

/-- C10: `parse_playlist_id`, `parse_channel_id` and `parse_channel_handle`
are total over arbitrary Python values: each returns an identifier or `none`
and never raises (their embedding returns `Option`, with no error channel);
non-string inputs — `None` included — short-circuit to `none`. -/
theorem parsers_nonstring_none (v : PyVal) (h : pvIsStr v = false) :
    parse_playlist_id v = none ∧ parse_channel_id v = none ∧
    parse_channel_handle v = none := by
  cases v
  · rw [pvIsStr] at h; cases h
  · exact ⟨rfl, rfl, rfl⟩
  · exact ⟨rfl, rfl, rfl⟩

-- Witness for C10 at the Python value `None`.
theorem parsers_nonstring_none_witness :
    parse_playlist_id PyVal.pyNone = none ∧ parse_channel_id PyVal.pyNone = none ∧
    parse_channel_handle PyVal.pyNone = none :=
  parsers_nonstring_none PyVal.pyNone (by decide)
